import Mathlib

/-!
Verification of the availability-resolution and slot-reservation engine of the
salon booking application.

The shallow embedding below mirrors the two source components:
- AppointmentForm.tsx: the resolution path (checkServiceConfiguration,
  fetchAvailableDatesForService, fetchGeneralAvailableDates,
  generateServiceSuggestion, fetchServiceSpecificTimes) and the reservation
  path (handleSubmit).
- ServiceAvailabilityManager (the administrative component): handleAddTime and
  handleRemoveTime.

The Supabase store is modelled as four tables held as lists of rows.  Each
query of the source is translated to a list filter; a query that the store
answers with an error is modelled by the query returning none, matching the
data-null result the Supabase client hands back, which the source code
coalesces away.  Dates and times are the YYYY-MM-DD and HH:MM strings the
source compares lexicographically.
-/

/-- A row of the available_dates table: a DateRecord. -/
structure DateRow where
  id : Nat
  date : String
  deriving DecidableEq

/-- A row of the available_times table: a GeneralSlot. -/
structure GeneralRow where
  id : Nat
  date_id : Nat
  time : String
  is_available : Bool
  deriving DecidableEq

/-- A row of the service_availability table: a ServiceSlot. -/
structure ServiceRow where
  id : Nat
  service_id : String
  date_id : Nat
  time : String
  is_available : Bool
  deriving DecidableEq

/-- A row of the appointments table. -/
structure AppointmentRow where
  client_name : String
  service_id : String
  date : String
  time : String
  status : String
  deriving DecidableEq

/-- The state of the external store: the four tables the engine touches. -/
structure Store where
  available_dates : List DateRow
  available_times : List GeneralRow
  service_availability : List ServiceRow
  appointments : List AppointmentRow
  deriving DecidableEq

/-- Supabase maybeSingle: some row when the query matches exactly one row,
none when it matches zero rows or errors because it matched several. -/
def maybeSingle {α : Type} (l : List α) : Option α :=
  match l with
  | [x] => some x
  | _ => none

/-- The date-record lookup used throughout both components:
from available_dates select id where date equals the argument, maybeSingle. -/
def findDateRecord (st : Store) (d : String) : Option DateRow :=
  maybeSingle (st.available_dates.filter (fun r => r.date == d))

/-- Which queries of the resolution path the store answers with an error
(the Supabase client returns data null in that case). -/
structure QueryFail where
  qDateLookup : Bool
  qServiceConfig : Bool
  qServiceTimes : Bool
  qGeneralTimes : Bool
  qAllServiceTimes : Bool
  qServiceDates : Bool
  qGeneralDates : Bool
  qSuggestRows : Bool
  deriving DecidableEq

/-- No storage error on any query. -/
def noQF : QueryFail :=
  ⟨false, false, false, false, false, false, false, false⟩

/-- Sort key used for order-by-time queries on general rows. -/
def leTimeG (a b : GeneralRow) : Prop := a.time ≤ b.time

instance : DecidableRel leTimeG :=
  fun a b => inferInstanceAs (Decidable (a.time ≤ b.time))

instance : IsTotal GeneralRow leTimeG := ⟨fun a b => le_total a.time b.time⟩

instance : IsTrans GeneralRow leTimeG :=
  ⟨fun _ _ _ h1 h2 => le_trans h1 h2⟩

/-- Sort key used for order-by-time queries on service rows. -/
def leTimeS (a b : ServiceRow) : Prop := a.time ≤ b.time

instance : DecidableRel leTimeS :=
  fun a b => inferInstanceAs (Decidable (a.time ≤ b.time))

instance : IsTotal ServiceRow leTimeS := ⟨fun a b => le_total a.time b.time⟩

instance : IsTrans ServiceRow leTimeS :=
  ⟨fun _ _ _ h1 h2 => le_trans h1 h2⟩

/-- The time-and-flag pairs the form holds in its availableTimes state. -/
structure TimeRow where
  time : String
  is_available : Bool
  deriving DecidableEq

/-- Ascending-time order on the rows the resolver returns. -/
def leTimeT (a b : TimeRow) : Prop := a.time ≤ b.time

instance : DecidableRel leTimeT :=
  fun a b => inferInstanceAs (Decidable (a.time ≤ b.time))

/-- checkServiceConfiguration of AppointmentForm: select id from
service_availability where service_id equals the service, limit 1; the flag is
whether the result is non-empty, and an errored query yields false. -/
def checkServiceConfiguration (qf : QueryFail) (st : Store) (serviceId : String) : Bool :=
  match (if qf.qServiceConfig then none
         else some ((st.service_availability.filter
                      (fun r => r.service_id == serviceId)).take 1)) with
  | some serviceConfig => serviceConfig.length > 0
  | none => false

/-- fetchAvailableDatesForService of AppointmentForm: service_availability rows
for the service with is_available true, inner-joined to available_dates, mapped
to their date, filtered to dates at or after today, then sorted. -/
def fetchAvailableDatesForService (qf : QueryFail) (st : Store)
    (serviceId today : String) : List String :=
  let rows : Option (List String) :=
    if qf.qServiceDates then none
    else some (st.service_availability.filterMap (fun r =>
      if r.service_id == serviceId && r.is_available then
        (st.available_dates.find? (fun d => d.id == r.date_id)).map (fun d => d.date)
      else none))
  let serviceDates := rows.getD []
  let futureDates := serviceDates.filter (fun d => today ≤ d)
  List.insertionSort (· ≤ ·) futureDates

/-- fetchGeneralAvailableDates of AppointmentForm: all available_dates ordered
by date, filtered to dates at or after today, then sorted. -/
def fetchGeneralAvailableDates (qf : QueryFail) (st : Store)
    (today : String) : List String :=
  let rows : Option (List String) :=
    if qf.qGeneralDates then none
    else some (List.insertionSort (· ≤ ·) (st.available_dates.map (fun d => d.date)))
  let generalDates := rows.getD []
  let futureDates := generalDates.filter (fun d => today ≤ d)
  List.insertionSort (· ≤ ·) futureDates

/-- Claim C6: datesFor only returns dates at or after today, ascending, in both
the service-specific branch and the general branch. -/
theorem datesFor_future_and_ascending (qf : QueryFail) (st : Store)
    (serviceId today : String) :
    (List.Sorted (· ≤ ·) (fetchAvailableDatesForService qf st serviceId today) ∧
      ∀ d ∈ fetchAvailableDatesForService qf st serviceId today, today ≤ d) ∧
    (List.Sorted (· ≤ ·) (fetchGeneralAvailableDates qf st today) ∧
      ∀ d ∈ fetchGeneralAvailableDates qf st today, today ≤ d) := by
  constructor
  · constructor
    · exact List.sorted_insertionSort _ _
    · intro d hd
      unfold fetchAvailableDatesForService at hd
      rw [List.mem_insertionSort] at hd
      have := List.of_mem_filter hd
      exact of_decide_eq_true this
  · constructor
    · exact List.sorted_insertionSort _ _
    · intro d hd
      unfold fetchGeneralAvailableDates at hd
      rw [List.mem_insertionSort] at hd
      have := List.of_mem_filter hd
      exact of_decide_eq_true this

/-- fetchServiceSpecificTimes of AppointmentForm, the slotsFor resolver: after
resolving the DateRecord it either returns the available service-specific rows
of the configured service ordered by time, or, for an unconfigured service, the
available general rows ordered by time minus every time that any service has
registered for that DateRecord. -/
def fetchServiceSpecificTimes (qf : QueryFail) (st : Store)
    (date serviceId : String) : List TimeRow :=
  match (if qf.qDateLookup then none else findDateRecord st date) with
  | none => []
  | some dateData =>
    let serviceConfig : Option (List ServiceRow) :=
      if qf.qServiceConfig then none
      else some ((st.service_availability.filter
                   (fun r => r.service_id == serviceId)).take 1)
    if (serviceConfig.getD []).length > 0 then
      match (if qf.qServiceTimes then none
             else some (List.insertionSort leTimeS (st.service_availability.filter
               (fun r => r.service_id == serviceId && r.date_id == dateData.id &&
                 r.is_available)))) with
      | none => []
      | some serviceTimesData =>
        serviceTimesData.map (fun r => TimeRow.mk r.time r.is_available)
    else
      match (if qf.qGeneralTimes then none
             else some (List.insertionSort leTimeG (st.available_times.filter
               (fun r => r.date_id == dateData.id && r.is_available)))) with
      | none => []
      | some generalTimesData =>
        let allServiceTimes :=
          (if qf.qAllServiceTimes then none
           else some (st.service_availability.filter
                       (fun r => r.date_id == dateData.id))).getD []
        let serviceSpecificTimes := allServiceTimes.map (fun r => r.time)
        (generalTimesData.filter
          (fun t => !(serviceSpecificTimes.contains t.time))).map
          (fun r => TimeRow.mk r.time r.is_available)

/-- Claim C1: for a service with no ServiceSlot row at all, the resolver
returns exactly the available GeneralSlot rows of the resolved DateRecord
whose time no service has registered for that DateRecord (any service, any
availability flag), sorted ascending by time; in particular a time claimed by
any ServiceSlot row is never listed. -/
theorem slotsFor_general_tier_exact (st : Store) (serviceId date : String)
    (dr : DateRow)
    (hnc : st.service_availability.filter (fun r => r.service_id == serviceId) = [])
    (hdr : findDateRecord st date = some dr) :
    (fetchServiceSpecificTimes noQF st date serviceId).Perm
      ((st.available_times.filter (fun g =>
          g.date_id == dr.id && g.is_available &&
          !(((st.service_availability.filter (fun s => s.date_id == dr.id)).map
              (fun s => s.time)).contains g.time))).map
        (fun g => TimeRow.mk g.time g.is_available)) ∧
    List.Sorted leTimeT (fetchServiceSpecificTimes noQF st date serviceId) ∧
    ∀ t ∈ fetchServiceSpecificTimes noQF st date serviceId,
      ∀ s ∈ st.service_availability, s.date_id = dr.id → s.time ≠ t.time := by
  have hred : fetchServiceSpecificTimes noQF st date serviceId =
      ((List.insertionSort leTimeG (st.available_times.filter
          (fun r => r.date_id == dr.id && r.is_available))).filter
        (fun t => !(((st.service_availability.filter
            (fun r => r.date_id == dr.id)).map (fun r => r.time)).contains t.time))).map
        (fun r => TimeRow.mk r.time r.is_available) := by
    unfold fetchServiceSpecificTimes
    simp only [noQF, if_false, Bool.false_eq_true, hdr, hnc, List.take_nil,
      Option.getD_some, List.length_nil, gt_iff_lt, lt_self_iff_false]
  rw [hred]
  refine ⟨?_, ?_, ?_⟩
  · apply List.Perm.map
    have h2 : (st.available_times.filter
        (fun r => r.date_id == dr.id && r.is_available)).filter
          (fun t => !(((st.service_availability.filter
            (fun r => r.date_id == dr.id)).map (fun r => r.time)).contains t.time)) =
        st.available_times.filter (fun g =>
          g.date_id == dr.id && g.is_available &&
          !(((st.service_availability.filter (fun s => s.date_id == dr.id)).map
              (fun s => s.time)).contains g.time)) := by
      rw [List.filter_filter]
      exact List.filter_congr (fun a _ => Bool.and_comm _ _)
    rw [← h2]
    exact (List.perm_insertionSort _ _).filter _
  · exact ((List.sorted_insertionSort leTimeG _).filter _).map _
      (fun a b h => h)
  · intro t ht s hs hsdid
    rcases List.mem_map.1 ht with ⟨g, hg, hgt⟩
    have hq := (List.mem_filter.1 hg).2
    intro habs
    have hmem : g.time ∈ (st.service_availability.filter
        (fun r => r.date_id == dr.id)).map (fun r => r.time) :=
      List.mem_map.2 ⟨s, List.mem_filter.2 ⟨hs, by simp [hsdid]⟩, by rw [habs, ← hgt]⟩
    have hc : ((st.service_availability.filter (fun r => r.date_id == dr.id)).map
        (fun r => r.time)).contains g.time = true := by
      simp only [List.contains_eq_any_beq, List.any_eq_true]
      exact ⟨g.time, hmem, by simp⟩
    rw [hc] at hq
    simp at hq

/-- The scenario of the testable properties: one DateRecord, general slots at
09:00 and 10:00, and service s1 claiming 09:00 as a service-specific slot. -/
def stScenario : Store :=
  ⟨[⟨1, "2026-12-01"⟩],
   [⟨10, 1, "09:00", true⟩, ⟨11, 1, "10:00", true⟩],
   [⟨20, "s1", 1, "09:00", true⟩],
   []⟩

/-- Witness for claim C1 on the concrete scenario: the unconfigured service s2
gets exactly the general rows minus the time claimed by s1. -/
theorem slotsFor_general_tier_exact_witness :
    (fetchServiceSpecificTimes noQF stScenario "2026-12-01" "s2").Perm
      ((stScenario.available_times.filter (fun g =>
          g.date_id == (1 : Nat) && g.is_available &&
          !(((stScenario.service_availability.filter
              (fun s => s.date_id == (1 : Nat))).map
              (fun s => s.time)).contains g.time))).map
        (fun g => TimeRow.mk g.time g.is_available)) ∧
    List.Sorted leTimeT (fetchServiceSpecificTimes noQF stScenario "2026-12-01" "s2") ∧
    ∀ t ∈ fetchServiceSpecificTimes noQF stScenario "2026-12-01" "s2",
      ∀ s ∈ stScenario.service_availability, s.date_id = 1 → s.time ≠ t.time :=
  slotsFor_general_tier_exact stScenario "s2" "2026-12-01" ⟨1, "2026-12-01"⟩
    (by decide) (by decide)

/-- Which writes or reads of the reservation path fail at the store. -/
structure BookFailures where
  insertFails : Bool
  dateLookupFails : Bool
  slotLookupFails : Bool
  updateServiceFails : Bool
  updateGeneralFails : Bool
  deriving DecidableEq

/-- No storage error on any reservation-path call. -/
def noBF : BookFailures := ⟨false, false, false, false, false⟩

/-- The observable outcome of handleSubmit: the validation alert, the thrown
and alerted storage error, or the onSubmit callback with the created row. -/
inductive BookOutcome where
  | validationError
  | storageError
  | success (appt : AppointmentRow)
  deriving DecidableEq

/-- Resulting store, outcome, and the console-error messages emitted. -/
structure BookResult where
  store : Store
  outcome : BookOutcome
  log : List String
  deriving DecidableEq

/-- The store update command of the service branch of handleSubmit: set
is_available false on the row whose id matches. -/
def flipServiceRow (targetId : Nat) (r : ServiceRow) : ServiceRow :=
  if r.id == targetId then { r with is_available := false } else r

/-- The store update command of the general branch of handleSubmit: set
is_available false on every row matching the DateRecord and time. -/
def flipGeneralRow (dateId : Nat) (time : String) (r : GeneralRow) : GeneralRow :=
  if r.date_id == dateId && r.time == time then { r with is_available := false }
  else r

/-- handleSubmit of AppointmentForm, the book operation: validate the four
fields, insert the appointment with status pending, resolve the DateRecord,
prefer flipping the matching service_availability row, otherwise flip the
available_times rows matching the date and time; update errors are only
logged, and a missing DateRecord or missing slot row is silently skipped. -/
def handleSubmit (bf : BookFailures) (name serviceId date time : String)
    (st : Store) : BookResult :=
  if name == "" || serviceId == "" || date == "" || time == "" then
    ⟨st, BookOutcome.validationError, []⟩
  else if bf.insertFails then
    ⟨st, BookOutcome.storageError,
      ["Error creating appointment:", "Error in appointment submission:"]⟩
  else
    let appt : AppointmentRow := ⟨name, serviceId, date, time, "pending"⟩
    let st1 : Store := { st with appointments := st.appointments ++ [appt] }
    match (if bf.dateLookupFails then none else findDateRecord st1 date) with
    | none => ⟨st1, BookOutcome.success appt, []⟩
    | some dateData =>
      match (if bf.slotLookupFails then none
             else maybeSingle (st1.service_availability.filter
               (fun r => r.service_id == serviceId && r.date_id == dateData.id &&
                 r.time == time))) with
      | some serviceAvailability =>
        if bf.updateServiceFails then
          ⟨st1, BookOutcome.success appt, ["Error updating service availability:"]⟩
        else
          ⟨{ st1 with service_availability := (st1.service_availability.map
              (flipServiceRow serviceAvailability.id)) },
            BookOutcome.success appt, []⟩
      | none =>
        if bf.updateGeneralFails then
          ⟨st1, BookOutcome.success appt, ["Error updating time availability:"]⟩
        else
          ⟨{ st1 with available_times := (st1.available_times.map
              (flipGeneralRow dateData.id time)) },
            BookOutcome.success appt, []⟩

/-- maybeSingle answers some only on a singleton query result. -/
theorem maybeSingle_eq_some {α : Type} {l : List α} {x : α}
    (h : maybeSingle l = some x) : l = [x] := by
  match l with
  | [] => simp [maybeSingle] at h
  | [a] => simp [maybeSingle] at h; rw [h]
  | a :: b :: t => simp [maybeSingle] at h

/-- A filter returning a single row splits the list around that row, with the
predicate false everywhere else. -/
theorem filter_eq_single_decomp {α : Type} (p : α → Bool) :
    ∀ (l : List α) (x : α), l.filter p = [x] →
      ∃ l1 l2, l = l1 ++ x :: l2 ∧ (∀ r ∈ l1, p r = false) ∧
        (∀ r ∈ l2, p r = false) ∧ p x = true := by
  intro l
  induction l with
  | nil => intro x h; simp at h
  | cons a t ih =>
    intro x h
    by_cases hpa : p a = true
    · rw [List.filter_cons_of_pos hpa] at h
      injection h with h1 h2
      refine ⟨[], t, by simp [h1], by simp, ?_, h1 ▸ hpa⟩
      intro r hr
      exact Bool.eq_false_iff.mpr (List.filter_eq_nil_iff.mp h2 r hr)
    · rw [List.filter_cons_of_neg hpa] at h
      obtain ⟨l1, l2, he, hf1, hf2, hx⟩ := ih x h
      exact ⟨a :: l1, l2, by rw [he]; rfl,
        fun r hr => by
          rcases List.mem_cons.mp hr with h' | h'
          · exact h' ▸ Bool.eq_false_iff.mpr hpa
          · exact hf1 r h',
        hf2, hx⟩

/-- A store whose DateRecord for 2026-12-02 exists but carries no slot row of
either tier. -/
def stBookNoSlot : Store := ⟨[⟨1, "2026-12-02"⟩], [], [], []⟩

/-- Counterexample to claim C2 as stated: this book call succeeds while
flipping zero slot records, because neither a ServiceSlot nor a GeneralSlot
matches, so a successful booking can leave no record unavailable. -/
theorem book_flips_zero_cex :
    (handleSubmit noBF "Ana" "s1" "2026-12-02" "09:00" stBookNoSlot).outcome =
      BookOutcome.success ⟨"Ana", "s1", "2026-12-02", "09:00", "pending"⟩ ∧
    (handleSubmit noBF "Ana" "s1" "2026-12-02" "09:00" stBookNoSlot).store.available_times =
      stBookNoSlot.available_times ∧
    (handleSubmit noBF "Ana" "s1" "2026-12-02" "09:00" stBookNoSlot).store.service_availability =
      stBookNoSlot.service_availability := by
  decide

/-- Appending an appointment row does not change the DateRecord lookup. -/
theorem findDateRecord_set_appointments (st : Store) (l : List AppointmentRow)
    (d : String) :
    findDateRecord { st with appointments := l } d = findDateRecord st d := rfl

/-- Claim C2 (amended): when the booked date resolves to a DateRecord and a
matching slot row exists, a successful book flips exactly one slot record to
unavailable: the unique ServiceSlot matching service, DateRecord and time when
present, leaving the general table untouched, otherwise the unique GeneralSlot
matching DateRecord and time, leaving the service table untouched; every other
row is unchanged.  When neither matches, zero records are flipped and the
booking still succeeds. -/
theorem book_flips_exactly_one (name serviceId date time : String)
    (st : Store) (dr : DateRow)
    (hn : name ≠ "") (hs : serviceId ≠ "") (hd2 : date ≠ "") (ht : time ≠ "")
    (hdr : findDateRecord st date = some dr)
    (hids : (st.service_availability.map (fun r => r.id)).Nodup) :
    (∀ x, st.service_availability.filter
        (fun r => r.service_id == serviceId && r.date_id == dr.id &&
          r.time == time) = [x] →
      (handleSubmit noBF name serviceId date time st).outcome =
        BookOutcome.success ⟨name, serviceId, date, time, "pending"⟩ ∧
      (handleSubmit noBF name serviceId date time st).store.available_times =
        st.available_times ∧
      ∃ l1 l2, st.service_availability = l1 ++ x :: l2 ∧
        (handleSubmit noBF name serviceId date time st).store.service_availability =
          l1 ++ { x with is_available := false } :: l2) ∧
    (st.service_availability.filter
        (fun r => r.service_id == serviceId && r.date_id == dr.id &&
          r.time == time) = [] →
      ∀ y, st.available_times.filter
          (fun r => r.date_id == dr.id && r.time == time) = [y] →
      (handleSubmit noBF name serviceId date time st).outcome =
        BookOutcome.success ⟨name, serviceId, date, time, "pending"⟩ ∧
      (handleSubmit noBF name serviceId date time st).store.service_availability =
        st.service_availability ∧
      ∃ l1 l2, st.available_times = l1 ++ y :: l2 ∧
        (handleSubmit noBF name serviceId date time st).store.available_times =
          l1 ++ { y with is_available := false } :: l2) := by
  have hcond : (name == "" || serviceId == "" || date == "" || time == "") = false := by
    rw [beq_eq_false_iff_ne.mpr hn, beq_eq_false_iff_ne.mpr hs,
      beq_eq_false_iff_ne.mpr hd2, beq_eq_false_iff_ne.mpr ht]
    rfl
  constructor
  · intro x hx
    have hred : handleSubmit noBF name serviceId date time st =
        ⟨{ st with
            appointments := st.appointments ++ [⟨name, serviceId, date, time, "pending"⟩],
            service_availability := (st.service_availability.map
              (flipServiceRow x.id)) },
          BookOutcome.success ⟨name, serviceId, date, time, "pending"⟩, []⟩ := by
      unfold handleSubmit
      simp only [noBF, hcond, Bool.false_eq_true, if_false,
        findDateRecord_set_appointments, hdr, hx, maybeSingle]
    rw [hred]
    refine ⟨rfl, rfl, ?_⟩
    obtain ⟨l1, l2, he, hf1, hf2, hpx⟩ := filter_eq_single_decomp _ _ x hx
    refine ⟨l1, l2, he, ?_⟩
    have hnodup := hids
    rw [he] at hnodup
    simp only [List.map_append, List.map_cons, List.nodup_append] at hnodup
    have hx1 : ∀ r ∈ l1, (r.id == x.id) = false := by
      intro r hr
      apply beq_eq_false_iff_ne.mpr
      intro hid
      exact hnodup.2.2 (List.mem_map.2 ⟨r, hr, rfl⟩)
        (by rw [hid]; exact List.mem_cons_self _ _)
    have hx2 : ∀ r ∈ l2, (r.id == x.id) = false := by
      intro r hr
      apply beq_eq_false_iff_ne.mpr
      intro hid
      have := hnodup.2.1
      rw [List.nodup_cons] at this
      exact this.1 (List.mem_map.2 ⟨r, hr, hid⟩)
    have hmap1 : l1.map (flipServiceRow x.id) = l1 := by
      rw [List.map_congr_left (fun a ha => by
        unfold flipServiceRow; rw [hx1 a ha])]
      exact List.map_id l1
    have hmap2 : l2.map (flipServiceRow x.id) = l2 := by
      rw [List.map_congr_left (fun a ha => by
        unfold flipServiceRow; rw [hx2 a ha])]
      exact List.map_id l2
    simp only [he, List.map_append, List.map_cons, hmap1, hmap2, flipServiceRow,
      beq_self_eq_true, if_true]
  · intro hnone y hy
    have hred : handleSubmit noBF name serviceId date time st =
        ⟨{ st with
            appointments := st.appointments ++ [⟨name, serviceId, date, time, "pending"⟩],
            available_times := (st.available_times.map
              (flipGeneralRow dr.id time)) },
          BookOutcome.success ⟨name, serviceId, date, time, "pending"⟩, []⟩ := by
      unfold handleSubmit
      simp only [noBF, hcond, Bool.false_eq_true, if_false,
        findDateRecord_set_appointments, hdr, hnone, maybeSingle]
    rw [hred]
    refine ⟨rfl, rfl, ?_⟩
    obtain ⟨l1, l2, he, hf1, hf2, hpy⟩ := filter_eq_single_decomp _ _ y hy
    refine ⟨l1, l2, he, ?_⟩
    have hmap1 : l1.map (flipGeneralRow dr.id time) = l1 := by
      rw [List.map_congr_left (fun a ha => by
        unfold flipGeneralRow; rw [hf1 a ha])]
      exact List.map_id l1
    have hmap2 : l2.map (flipGeneralRow dr.id time) = l2 := by
      rw [List.map_congr_left (fun a ha => by
        unfold flipGeneralRow; rw [hf2 a ha])]
      exact List.map_id l2
    simp only [he, List.map_append, List.map_cons, hmap1, hmap2, flipGeneralRow,
      hpy, if_true]

/-- A store with one DateRecord and a single matching ServiceSlot for s1. -/
def stBookService : Store :=
  ⟨[⟨1, "2026-12-03"⟩], [], [⟨30, "s1", 1, "10:00", true⟩], []⟩

/-- Witness for the amended claim C2: booking the configured slot flips
exactly that ServiceSlot and leaves the general table untouched. -/
theorem book_flips_exactly_one_witness :
    (handleSubmit noBF "Ana" "s1" "2026-12-03" "10:00" stBookService).outcome =
      BookOutcome.success ⟨"Ana", "s1", "2026-12-03", "10:00", "pending"⟩ ∧
    (handleSubmit noBF "Ana" "s1" "2026-12-03" "10:00" stBookService).store.available_times =
      stBookService.available_times ∧
    ∃ l1 l2, stBookService.service_availability =
        l1 ++ (⟨30, "s1", 1, "10:00", true⟩ : ServiceRow) :: l2 ∧
      (handleSubmit noBF "Ana" "s1" "2026-12-03" "10:00" stBookService).store.service_availability =
        l1 ++ { (⟨30, "s1", 1, "10:00", true⟩ : ServiceRow) with
          is_available := false } :: l2 :=
  (book_flips_exactly_one "Ana" "s1" "2026-12-03" "10:00" stBookService
    ⟨1, "2026-12-03"⟩ (by decide) (by decide) (by decide) (by decide)
    (by decide) (by decide)).1 ⟨30, "s1", 1, "10:00", true⟩ (by decide)

/-- A store whose DateRecord for 2026-12-04 exists with slot rows of both
tiers, none of which matches the booked time. -/
def stBookStale : Store :=
  ⟨[⟨1, "2026-12-04"⟩], [⟨10, 1, "08:00", true⟩], [⟨20, "s2", 1, "11:00", true⟩], []⟩

/-- Counterexample to claim C3 as stated: when no slot row matches the booked
time, the appointment is kept and success is reported, but nothing at all is
signalled: the console-error log of the call is empty, so no StaleSlotWarning
exists anywhere in the observable behaviour. -/
theorem book_stale_no_warning_cex :
    (handleSubmit noBF "Bia" "s1" "2026-12-04" "09:30" stBookStale).outcome =
      BookOutcome.success ⟨"Bia", "s1", "2026-12-04", "09:30", "pending"⟩ ∧
    (handleSubmit noBF "Bia" "s1" "2026-12-04" "09:30" stBookStale).store.appointments =
      [⟨"Bia", "s1", "2026-12-04", "09:30", "pending"⟩] ∧
    (handleSubmit noBF "Bia" "s1" "2026-12-04" "09:30" stBookStale).log = [] := by
  decide

/-- Claim C3 (amended): when the appointment insert succeeds but neither a
matching ServiceSlot nor a matching GeneralSlot exists, book keeps the created
appointment, reports success, leaves both slot tables unchanged, and emits no
signal of any kind: the inconsistency is entirely silent. -/
theorem book_stale_silent (name serviceId date time : String)
    (st : Store) (dr : DateRow)
    (hn : name ≠ "") (hs : serviceId ≠ "") (hd2 : date ≠ "") (ht : time ≠ "")
    (hdr : findDateRecord st date = some dr)
    (hnoS : st.service_availability.filter
      (fun r => r.service_id == serviceId && r.date_id == dr.id &&
        r.time == time) = [])
    (hnoG : ∀ r ∈ st.available_times,
      (r.date_id == dr.id && r.time == time) = false) :
    (handleSubmit noBF name serviceId date time st).outcome =
      BookOutcome.success ⟨name, serviceId, date, time, "pending"⟩ ∧
    (handleSubmit noBF name serviceId date time st).store.appointments =
      st.appointments ++ [⟨name, serviceId, date, time, "pending"⟩] ∧
    (handleSubmit noBF name serviceId date time st).store.available_times =
      st.available_times ∧
    (handleSubmit noBF name serviceId date time st).store.service_availability =
      st.service_availability ∧
    (handleSubmit noBF name serviceId date time st).log = [] := by
  have hcond : (name == "" || serviceId == "" || date == "" || time == "") = false := by
    rw [beq_eq_false_iff_ne.mpr hn, beq_eq_false_iff_ne.mpr hs,
      beq_eq_false_iff_ne.mpr hd2, beq_eq_false_iff_ne.mpr ht]
    rfl
  have hmap : st.available_times.map (flipGeneralRow dr.id time) =
      st.available_times := by
    rw [List.map_congr_left (fun a ha => by
      unfold flipGeneralRow; rw [hnoG a ha])]
    exact List.map_id _
  have hred : handleSubmit noBF name serviceId date time st =
      ⟨{ st with
          appointments := st.appointments ++ [⟨name, serviceId, date, time, "pending"⟩],
          available_times := (st.available_times.map
            (flipGeneralRow dr.id time)) },
        BookOutcome.success ⟨name, serviceId, date, time, "pending"⟩, []⟩ := by
    unfold handleSubmit
    simp only [noBF, hcond, Bool.false_eq_true, if_false,
      findDateRecord_set_appointments, hdr, hnoS, maybeSingle]
  rw [hred]
  exact ⟨rfl, rfl, hmap, rfl, rfl⟩

/-- Witness for the amended claim C3 on the concrete stale store. -/
theorem book_stale_silent_witness :
    (handleSubmit noBF "Bia" "s1" "2026-12-04" "09:45" stBookStale).outcome =
      BookOutcome.success ⟨"Bia", "s1", "2026-12-04", "09:45", "pending"⟩ ∧
    (handleSubmit noBF "Bia" "s1" "2026-12-04" "09:45" stBookStale).store.appointments =
      stBookStale.appointments ++ [⟨"Bia", "s1", "2026-12-04", "09:45", "pending"⟩] ∧
    (handleSubmit noBF "Bia" "s1" "2026-12-04" "09:45" stBookStale).store.available_times =
      stBookStale.available_times ∧
    (handleSubmit noBF "Bia" "s1" "2026-12-04" "09:45" stBookStale).store.service_availability =
      stBookStale.service_availability ∧
    (handleSubmit noBF "Bia" "s1" "2026-12-04" "09:45" stBookStale).log = [] :=
  book_stale_silent "Bia" "s1" "2026-12-04" "09:45" stBookStale ⟨1, "2026-12-04"⟩
    (by decide) (by decide) (by decide) (by decide) (by decide) (by decide)
    (by decide)

/-- findDateRecord reads only the available_dates table. -/
theorem findDateRecord_update (st : Store) (t : List GeneralRow)
    (sa : List ServiceRow) (ap : List AppointmentRow) (d : String) :
    findDateRecord ⟨st.available_dates, t, sa, ap⟩ d = findDateRecord st d := rfl

/-- Flipping a service row does not change its booking-match key. -/
theorem filter_map_flipService (serviceId time : String) (did tid : Nat)
    (l : List ServiceRow) :
    (l.map (flipServiceRow tid)).filter
      (fun r => r.service_id == serviceId && r.date_id == did && r.time == time) =
    (l.filter (fun r => r.service_id == serviceId && r.date_id == did &&
      r.time == time)).map (flipServiceRow tid) := by
  rw [List.filter_map]
  congr 1
  apply List.filter_congr
  intro a _
  unfold flipServiceRow
  by_cases h : (a.id == tid) = true <;> simp [h, Function.comp]

/-- The service-branch update is idempotent on the whole table. -/
theorem map_flipService_idem (tid : Nat) (l : List ServiceRow) :
    (l.map (flipServiceRow tid)).map (flipServiceRow tid) =
      l.map (flipServiceRow tid) := by
  rw [List.map_map]
  apply List.map_congr_left
  intro a _
  simp only [Function.comp]
  unfold flipServiceRow
  by_cases h : (a.id == tid) = true <;> simp [h]

/-- The general-branch update is idempotent on the whole table. -/
theorem map_flipGeneral_idem (did : Nat) (time : String) (l : List GeneralRow) :
    (l.map (flipGeneralRow did time)).map (flipGeneralRow did time) =
      l.map (flipGeneralRow did time) := by
  rw [List.map_map]
  apply List.map_congr_left
  intro a _
  simp only [Function.comp]
  unfold flipGeneralRow
  by_cases h : (a.date_id == did && a.time == time) = true <;> simp [h]

/-- Claim C10: book never reads the prior availability flag: for any store,
two successive identical valid book calls both succeed, both create an
appointment row, and the second call changes neither slot table any further
(it merely re-sets the same flag to false). -/
theorem book_twice_both_succeed (name serviceId date time : String) (st : Store)
    (hn : name ≠ "") (hs : serviceId ≠ "") (hd2 : date ≠ "") (ht : time ≠ "") :
    (handleSubmit noBF name serviceId date time st).outcome =
      BookOutcome.success ⟨name, serviceId, date, time, "pending"⟩ ∧
    (handleSubmit noBF name serviceId date time st).store.appointments =
      st.appointments ++ [⟨name, serviceId, date, time, "pending"⟩] ∧
    (handleSubmit noBF name serviceId date time
        (handleSubmit noBF name serviceId date time st).store).outcome =
      BookOutcome.success ⟨name, serviceId, date, time, "pending"⟩ ∧
    (handleSubmit noBF name serviceId date time
        (handleSubmit noBF name serviceId date time st).store).store.appointments =
      st.appointments ++ [⟨name, serviceId, date, time, "pending"⟩,
        ⟨name, serviceId, date, time, "pending"⟩] ∧
    (handleSubmit noBF name serviceId date time
        (handleSubmit noBF name serviceId date time st).store).store.available_times =
      (handleSubmit noBF name serviceId date time st).store.available_times ∧
    (handleSubmit noBF name serviceId date time
        (handleSubmit noBF name serviceId date time st).store).store.service_availability =
      (handleSubmit noBF name serviceId date time st).store.service_availability := by
  have hcond : (name == "" || serviceId == "" || date == "" || time == "") = false := by
    rw [beq_eq_false_iff_ne.mpr hn, beq_eq_false_iff_ne.mpr hs,
      beq_eq_false_iff_ne.mpr hd2, beq_eq_false_iff_ne.mpr ht]
    rfl
  have hred : ∀ s : Store, handleSubmit noBF name serviceId date time s =
      match findDateRecord s date with
      | none =>
        ⟨{ s with appointments :=
            s.appointments ++ [⟨name, serviceId, date, time, "pending"⟩] },
          BookOutcome.success ⟨name, serviceId, date, time, "pending"⟩, []⟩
      | some dateData =>
        match maybeSingle (s.service_availability.filter
            (fun r => r.service_id == serviceId && r.date_id == dateData.id &&
              r.time == time)) with
        | some sa =>
          ⟨{ s with
              appointments :=
                s.appointments ++ [⟨name, serviceId, date, time, "pending"⟩],
              service_availability :=
                (s.service_availability.map (flipServiceRow sa.id)) },
            BookOutcome.success ⟨name, serviceId, date, time, "pending"⟩, []⟩
        | none =>
          ⟨{ s with
              appointments :=
                s.appointments ++ [⟨name, serviceId, date, time, "pending"⟩],
              available_times :=
                (s.available_times.map (flipGeneralRow dateData.id time)) },
            BookOutcome.success ⟨name, serviceId, date, time, "pending"⟩, []⟩ := by
    intro s
    unfold handleSubmit
    simp only [noBF, hcond, Bool.false_eq_true, if_false,
      findDateRecord_set_appointments]
  rcases hfd : findDateRecord st date with _ | dr
  · simp only [hred, findDateRecord_update, hfd]
    simp
  · rcases hms : maybeSingle (st.service_availability.filter
        (fun r => r.service_id == serviceId && r.date_id == dr.id &&
          r.time == time)) with _ | x
    · simp only [hred, findDateRecord_update, hfd, hms, map_flipGeneral_idem]
      simp
    · have hfx := maybeSingle_eq_some hms
      simp only [hred, findDateRecord_update, hfd, hms, filter_map_flipService,
        hfx, List.map_cons, List.map_nil, maybeSingle, map_flipService_idem]
      have hid : (flipServiceRow x.id x).id = x.id := by
        unfold flipServiceRow
        by_cases h : (x.id == x.id) = true <;> simp [h]
      simp only [hid]
      simp
      intro a _
      unfold flipServiceRow
      by_cases h : (a.id == x.id) = true <;> simp [h]

/-- Witness for claim C10: two identical bookings of the configured 09:00 slot
of the scenario store both succeed and stack two appointment rows. -/
theorem book_twice_both_succeed_witness :
    (handleSubmit noBF "Cai" "s1" "2026-12-01" "09:00" stScenario).outcome =
      BookOutcome.success ⟨"Cai", "s1", "2026-12-01", "09:00", "pending"⟩ ∧
    (handleSubmit noBF "Cai" "s1" "2026-12-01" "09:00" stScenario).store.appointments =
      stScenario.appointments ++ [⟨"Cai", "s1", "2026-12-01", "09:00", "pending"⟩] ∧
    (handleSubmit noBF "Cai" "s1" "2026-12-01" "09:00"
        (handleSubmit noBF "Cai" "s1" "2026-12-01" "09:00" stScenario).store).outcome =
      BookOutcome.success ⟨"Cai", "s1", "2026-12-01", "09:00", "pending"⟩ ∧
    (handleSubmit noBF "Cai" "s1" "2026-12-01" "09:00"
        (handleSubmit noBF "Cai" "s1" "2026-12-01" "09:00" stScenario).store).store.appointments =
      stScenario.appointments ++ [⟨"Cai", "s1", "2026-12-01", "09:00", "pending"⟩,
        ⟨"Cai", "s1", "2026-12-01", "09:00", "pending"⟩] ∧
    (handleSubmit noBF "Cai" "s1" "2026-12-01" "09:00"
        (handleSubmit noBF "Cai" "s1" "2026-12-01" "09:00" stScenario).store).store.available_times =
      (handleSubmit noBF "Cai" "s1" "2026-12-01" "09:00" stScenario).store.available_times ∧
    (handleSubmit noBF "Cai" "s1" "2026-12-01" "09:00"
        (handleSubmit noBF "Cai" "s1" "2026-12-01" "09:00" stScenario).store).store.service_availability =
      (handleSubmit noBF "Cai" "s1" "2026-12-01" "09:00" stScenario).store.service_availability :=
  book_twice_both_succeed "Cai" "s1" "2026-12-01" "09:00" stScenario
    (by decide) (by decide) (by decide) (by decide)

/-- Modelled from the spec: the store-level concurrency control of section 5,
absent from the source under src; the spec requires the store to reject the
appointment insert when an active appointment for the same service, date and
time already exists (the unique-constraint option), so that a racing
double-book fails rather than silently creating two appointments.  Except for
that guarded insert the definition repeats handleSubmit with no storage
errors. -/
def handleSubmitAtomic (name serviceId date time : String)
    (st : Store) : BookResult :=
  if name == "" || serviceId == "" || date == "" || time == "" then
    ⟨st, BookOutcome.validationError, []⟩
  else if st.appointments.any (fun a => a.service_id == serviceId &&
      a.date == date && a.time == time && a.status == "pending") then
    ⟨st, BookOutcome.storageError,
      ["Error creating appointment:", "Error in appointment submission:"]⟩
  else
    let appt : AppointmentRow := ⟨name, serviceId, date, time, "pending"⟩
    let st1 : Store := { st with appointments := st.appointments ++ [appt] }
    match findDateRecord st1 date with
    | none => ⟨st1, BookOutcome.success appt, []⟩
    | some dateData =>
      match maybeSingle (st1.service_availability.filter
          (fun r => r.service_id == serviceId && r.date_id == dateData.id &&
            r.time == time)) with
      | some serviceAvailability =>
        ⟨{ st1 with service_availability := (st1.service_availability.map
            (flipServiceRow serviceAvailability.id)) },
          BookOutcome.success appt, []⟩
      | none =>
        ⟨{ st1 with available_times := (st1.available_times.map
            (flipGeneralRow dateData.id time)) },
          BookOutcome.success appt, []⟩

/-- A valid book call always reports success and appends the pending
appointment row, whatever the slot tables hold. -/
theorem book_succeeds_appends (name serviceId date time : String) (st : Store)
    (hcond : (name == "" || serviceId == "" || date == "" || time == "") = false) :
    (handleSubmit noBF name serviceId date time st).outcome =
      BookOutcome.success ⟨name, serviceId, date, time, "pending"⟩ ∧
    (handleSubmit noBF name serviceId date time st).store.appointments =
      st.appointments ++ [⟨name, serviceId, date, time, "pending"⟩] := by
  unfold handleSubmit
  simp only [noBF, hcond, Bool.false_eq_true, if_false,
    findDateRecord_set_appointments]
  rcases hfd : findDateRecord st date with _ | dr
  · simp only [hfd]
    exact ⟨trivial, trivial⟩
  · simp only [hfd]
    rcases hms : maybeSingle (st.service_availability.filter
        (fun r => r.service_id == serviceId && r.date_id == dr.id &&
          r.time == time)) with _ | x
    · simp only [hms]
      exact ⟨trivial, trivial⟩
    · simp only [hms]
      exact ⟨trivial, trivial⟩

/-- Claim C9: with the store-level unique constraint the spec requires, two
book calls for the identical service, date and time, serialised in the order
the store commits their inserts, produce exactly one successful appointment:
the second call fails with a storage error, changes nothing, and exactly one
matching active appointment row exists afterwards. -/
theorem book_race_exactly_one (name serviceId date time : String) (st : Store)
    (hn : name ≠ "") (hs : serviceId ≠ "") (hd2 : date ≠ "") (ht : time ≠ "")
    (hprior : st.appointments.filter (fun a => a.service_id == serviceId &&
      a.date == date && a.time == time && a.status == "pending") = []) :
    (handleSubmitAtomic name serviceId date time st).outcome =
      BookOutcome.success ⟨name, serviceId, date, time, "pending"⟩ ∧
    (handleSubmitAtomic name serviceId date time
        (handleSubmitAtomic name serviceId date time st).store).outcome =
      BookOutcome.storageError ∧
    (handleSubmitAtomic name serviceId date time
        (handleSubmitAtomic name serviceId date time st).store).store =
      (handleSubmitAtomic name serviceId date time st).store ∧
    ((handleSubmitAtomic name serviceId date time st).store.appointments.filter
      (fun a => a.service_id == serviceId && a.date == date && a.time == time &&
        a.status == "pending")).length = 1 := by
  have hcond : (name == "" || serviceId == "" || date == "" || time == "") = false := by
    rw [beq_eq_false_iff_ne.mpr hn, beq_eq_false_iff_ne.mpr hs,
      beq_eq_false_iff_ne.mpr hd2, beq_eq_false_iff_ne.mpr ht]
    rfl
  have happt := book_succeeds_appends name serviceId date time st hcond
  have hany0 : st.appointments.any (fun a => a.service_id == serviceId &&
      a.date == date && a.time == time && a.status == "pending") = false := by
    rw [List.any_eq_false]
    intro a ha
    have := List.filter_eq_nil_iff.mp hprior a ha
    simpa using this
  have heq1 : handleSubmitAtomic name serviceId date time st =
      handleSubmit noBF name serviceId date time st := by
    unfold handleSubmitAtomic handleSubmit
    simp only [noBF, hcond, hany0, Bool.false_eq_true, if_false]
  have hany1 : (handleSubmit noBF name serviceId date time
      st).store.appointments.any (fun a => a.service_id == serviceId &&
      a.date == date && a.time == time && a.status == "pending") = true := by
    rw [happt.2, List.any_append, hany0]
    simp
  have heq2 : handleSubmitAtomic name serviceId date time
      (handleSubmit noBF name serviceId date time st).store =
      ⟨(handleSubmit noBF name serviceId date time st).store,
        BookOutcome.storageError,
        ["Error creating appointment:", "Error in appointment submission:"]⟩ := by
    unfold handleSubmitAtomic
    simp only [hcond, Bool.false_eq_true, if_false, hany1, if_true]
  refine ⟨?_, ?_, ?_, ?_⟩
  · rw [heq1]
    exact happt.1
  · rw [heq1, heq2]
  · rw [heq1, heq2]
  · rw [heq1, happt.2, List.filter_append, hprior]
    simp

/-- Witness for claim C9 on the scenario store. -/
theorem book_race_exactly_one_witness :
    (handleSubmitAtomic "Dan" "s1" "2026-12-01" "09:00" stScenario).outcome =
      BookOutcome.success ⟨"Dan", "s1", "2026-12-01", "09:00", "pending"⟩ ∧
    (handleSubmitAtomic "Dan" "s1" "2026-12-01" "09:00"
        (handleSubmitAtomic "Dan" "s1" "2026-12-01" "09:00" stScenario).store).outcome =
      BookOutcome.storageError ∧
    (handleSubmitAtomic "Dan" "s1" "2026-12-01" "09:00"
        (handleSubmitAtomic "Dan" "s1" "2026-12-01" "09:00" stScenario).store).store =
      (handleSubmitAtomic "Dan" "s1" "2026-12-01" "09:00" stScenario).store ∧
    ((handleSubmitAtomic "Dan" "s1" "2026-12-01" "09:00" stScenario).store.appointments.filter
      (fun a => a.service_id == "s1" && a.date == "2026-12-01" &&
        a.time == "09:00" && a.status == "pending")).length = 1 :=
  book_race_exactly_one "Dan" "s1" "2026-12-01" "09:00" stScenario
    (by decide) (by decide) (by decide) (by decide) (by decide)

/-- Outcome of handleAddTime of ServiceAvailabilityManager. -/
inductive AddOutcome where
  | missingFields
  | duplicateSlot
  | ok
  deriving DecidableEq

/-- handleAddTime of ServiceAvailabilityManager: get or lazily create the
DateRecord, reject a duplicate service slot, insert the new ServiceSlot with
is_available true, then remove the colliding GeneralSlot when one exists. -/
def handleAddTime (serviceId selectedDate time : String)
    (freshDateId freshSlotId : Nat) (st : Store) : Store × AddOutcome :=
  if serviceId == "" || selectedDate == "" || time == "" then
    (st, AddOutcome.missingFields)
  else
    let idAndStore : Nat × Store :=
      match findDateRecord st selectedDate with
      | some existingDate => (existingDate.id, st)
      | none => (freshDateId,
          { st with available_dates :=
              st.available_dates ++ [⟨freshDateId, selectedDate⟩] })
    let dateId := idAndStore.1
    let st1 := idAndStore.2
    match maybeSingle (st1.service_availability.filter
        (fun r => r.service_id == serviceId && r.date_id == dateId &&
          r.time == time)) with
    | some _ => (st1, AddOutcome.duplicateSlot)
    | none =>
      let st2 := { st1 with service_availability :=
          st1.service_availability ++ [⟨freshSlotId, serviceId, dateId, time, true⟩] }
      match maybeSingle (st2.available_times.filter
          (fun r => r.date_id == dateId && r.time == time)) with
      | some generalTime =>
        ({ st2 with available_times :=
            st2.available_times.filter (fun r => !(r.id == generalTime.id)) },
          AddOutcome.ok)
      | none => (st2, AddOutcome.ok)

/-- handleRemoveTime of ServiceAvailabilityManager, the release operation:
delete the ServiceSlot row by id, then add the time back to the general tier
only when no GeneralSlot for the resolved DateRecord and time exists. -/
def handleRemoveTime (timeId : Nat) (timeValue selectedDate : String)
    (freshGeneralId : Nat) (st : Store) : Store :=
  let st1 := { st with service_availability :=
      st.service_availability.filter (fun r => !(r.id == timeId)) }
  match findDateRecord st1 selectedDate with
  | none => st1
  | some dateData =>
    match maybeSingle (st1.available_times.filter
        (fun r => r.date_id == dateData.id && r.time == timeValue)) with
    | some _ => st1
    | none =>
      { st1 with available_times :=
          st1.available_times ++ [⟨freshGeneralId, dateData.id, timeValue, true⟩] }

/-- How many GeneralSlot rows of the store carry this DateRecord and time. -/
def countGeneral (st : Store) (did : Nat) (t : String) : Nat :=
  (st.available_times.filter (fun r => r.date_id == did && r.time == t)).length

/-- Claim C4: release deletes the ServiceSlot row and re-creates a GeneralSlot
only when none exists for the DateRecord and time, leaving an existing one
untouched; afterwards, and also after releasing twice, the general tier holds
the released time exactly once. -/
theorem release_no_duplication (st : Store) (timeId : Nat)
    (timeValue selectedDate : String) (g1 g2 : Nat) (dr : DateRow)
    (hdr : findDateRecord st selectedDate = some dr)
    (hc : countGeneral st dr.id timeValue ≤ 1) :
    countGeneral (handleRemoveTime timeId timeValue selectedDate g1 st)
      dr.id timeValue = 1 ∧
    countGeneral (handleRemoveTime timeId timeValue selectedDate g2
      (handleRemoveTime timeId timeValue selectedDate g1 st)) dr.id timeValue = 1 ∧
    (∀ r ∈ (handleRemoveTime timeId timeValue selectedDate g1
        st).service_availability, ¬ r.id = timeId) ∧
    (countGeneral st dr.id timeValue = 1 →
      (handleRemoveTime timeId timeValue selectedDate g1 st).available_times =
        st.available_times) ∧
    (countGeneral st dr.id timeValue = 0 →
      (handleRemoveTime timeId timeValue selectedDate g1 st).available_times =
        st.available_times ++ [⟨g1, dr.id, timeValue, true⟩]) := by
  have hsvc : ∀ r ∈ (st.service_availability.filter (fun r => !(r.id == timeId))),
      ¬ r.id = timeId := by
    intro r hr
    have h2 := (List.mem_filter.mp hr).2
    simpa using h2
  rcases Nat.le_one_iff_eq_zero_or_eq_one.mp hc with h0 | h1
  · have hnil : st.available_times.filter
        (fun r => r.date_id == dr.id && r.time == timeValue) = [] :=
      List.length_eq_zero.mp h0
    have hr1 : handleRemoveTime timeId timeValue selectedDate g1 st =
        { st with
            service_availability :=
              st.service_availability.filter (fun r => !(r.id == timeId)),
            available_times :=
              st.available_times ++ [⟨g1, dr.id, timeValue, true⟩] } := by
      unfold handleRemoveTime
      simp only [findDateRecord_update, hdr, hnil, maybeSingle]
    have hfil2 : (st.available_times ++
        [(⟨g1, dr.id, timeValue, true⟩ : GeneralRow)]).filter
          (fun r => r.date_id == dr.id && r.time == timeValue) =
        [⟨g1, dr.id, timeValue, true⟩] := by
      rw [List.filter_append, hnil]
      simp
    have hr2 : handleRemoveTime timeId timeValue selectedDate g2
        (handleRemoveTime timeId timeValue selectedDate g1 st) =
        { st with
            service_availability :=
              (st.service_availability.filter
                (fun r => !(r.id == timeId))).filter (fun r => !(r.id == timeId)),
            available_times :=
              st.available_times ++ [⟨g1, dr.id, timeValue, true⟩] } := by
      rw [hr1]
      unfold handleRemoveTime
      simp only [findDateRecord_update, hdr, hfil2, maybeSingle]
    refine ⟨?_, ?_, ?_, ?_, ?_⟩
    · rw [hr1]
      unfold countGeneral
      simp only [List.filter_append, hnil]
      simp
    · rw [hr2]
      unfold countGeneral
      simp only [List.filter_append, hnil]
      simp
    · rw [hr1]
      exact hsvc
    · intro habs
      rw [h0] at habs
      exact absurd habs (by decide)
    · intro _
      rw [hr1]
  · obtain ⟨x, hx⟩ := List.length_eq_one.mp h1
    have hr1 : handleRemoveTime timeId timeValue selectedDate g1 st =
        { st with
            service_availability :=
              st.service_availability.filter (fun r => !(r.id == timeId)) } := by
      unfold handleRemoveTime
      simp only [findDateRecord_update, hdr, hx, maybeSingle]
    have hr2 : handleRemoveTime timeId timeValue selectedDate g2
        (handleRemoveTime timeId timeValue selectedDate g1 st) =
        { st with
            service_availability :=
              (st.service_availability.filter
                (fun r => !(r.id == timeId))).filter (fun r => !(r.id == timeId)) } := by
      rw [hr1]
      unfold handleRemoveTime
      simp only [findDateRecord_update, hdr, hx, maybeSingle]
    refine ⟨?_, ?_, ?_, ?_, ?_⟩
    · rw [hr1]
      unfold countGeneral
      rw [hx]
      rfl
    · rw [hr2]
      unfold countGeneral
      rw [hx]
      rfl
    · rw [hr1]
      exact hsvc
    · intro _
      rw [hr1]
    · intro habs
      rw [h1] at habs
      exact absurd habs (by decide)

/-- Witness for claim C4: releasing the s1 slot of the scenario store, where a
general row for 09:00 already exists, keeps exactly one general row for the
time, also after a second release. -/
theorem release_no_duplication_witness :
    countGeneral (handleRemoveTime 20 "09:00" "2026-12-01" 7 stScenario)
      (1 : Nat) "09:00" = 1 ∧
    countGeneral (handleRemoveTime 20 "09:00" "2026-12-01" 8
      (handleRemoveTime 20 "09:00" "2026-12-01" 7 stScenario)) (1 : Nat) "09:00" = 1 ∧
    (∀ r ∈ (handleRemoveTime 20 "09:00" "2026-12-01" 7
        stScenario).service_availability, ¬ r.id = 20) ∧
    (countGeneral stScenario (1 : Nat) "09:00" = 1 →
      (handleRemoveTime 20 "09:00" "2026-12-01" 7 stScenario).available_times =
        stScenario.available_times) ∧
    (countGeneral stScenario (1 : Nat) "09:00" = 0 →
      (handleRemoveTime 20 "09:00" "2026-12-01" 7 stScenario).available_times =
        stScenario.available_times ++ [⟨7, 1, "09:00", true⟩]) :=
  release_no_duplication stScenario 20 "09:00" "2026-12-01" 7 8
    ⟨1, "2026-12-01"⟩ (by decide) (by decide)

/-- The empty store. -/
def stEmpty : Store := ⟨[], [], [], []⟩

/-- Counterexample to claim C5 as stated: adding a service slot to the empty
store displaces no general row (the general table is empty before and after
the add), yet removing that slot creates a brand-new GeneralSlot row, so
release resurrects a general slot that was never displaced. -/
theorem release_resurrects_cex :
    (handleAddTime "s1" "2026-12-05" "09:00" 1 2 stEmpty).2 = AddOutcome.ok ∧
    (handleAddTime "s1" "2026-12-05" "09:00" 1 2 stEmpty).1.available_times = [] ∧
    (handleRemoveTime 2 "09:00" "2026-12-05" 3
      (handleAddTime "s1" "2026-12-05" "09:00" 1 2 stEmpty).1).available_times =
      [⟨3, 1, "09:00", true⟩] := by
  decide

/-- Claim C5 (amended): removing a service-specific slot unconditionally
restores the general tier: whenever no GeneralSlot for the resolved DateRecord
and time exists, even one that was never displaced, the removal creates a new
available GeneralSlot row, and it deletes the ServiceSlot row. -/
theorem release_always_creates_general (st : Store) (timeId : Nat)
    (timeValue selectedDate : String) (g : Nat) (dr : DateRow)
    (hdr : findDateRecord st selectedDate = some dr)
    (hnone : st.available_times.filter
      (fun r => r.date_id == dr.id && r.time == timeValue) = []) :
    (handleRemoveTime timeId timeValue selectedDate g st).available_times =
      st.available_times ++ [⟨g, dr.id, timeValue, true⟩] ∧
    ∀ r ∈ (handleRemoveTime timeId timeValue selectedDate g
        st).service_availability, ¬ r.id = timeId := by
  have hr1 : handleRemoveTime timeId timeValue selectedDate g st =
      { st with
          service_availability :=
            st.service_availability.filter (fun r => !(r.id == timeId)),
          available_times :=
            st.available_times ++ [⟨g, dr.id, timeValue, true⟩] } := by
    unfold handleRemoveTime
    simp only [findDateRecord_update, hdr, hnone, maybeSingle]
  rw [hr1]
  refine ⟨rfl, ?_⟩
  intro r hr
  have h2 := (List.mem_filter.mp hr).2
  simpa using h2

/-- The store produced by configuring s1 at 09:00 on a fresh date with no
general rows anywhere. -/
def stC5 : Store := ⟨[⟨1, "2026-12-05"⟩], [], [⟨2, "s1", 1, "09:00", true⟩], []⟩

/-- Witness for the amended claim C5. -/
theorem release_always_creates_general_witness :
    (handleRemoveTime 2 "09:00" "2026-12-05" 3 stC5).available_times =
      stC5.available_times ++ [⟨3, 1, "09:00", true⟩] ∧
    ∀ r ∈ (handleRemoveTime 2 "09:00" "2026-12-05" 3 stC5).service_availability,
      ¬ r.id = 2 :=
  release_always_creates_general stC5 2 "09:00" "2026-12-05" 3
    ⟨1, "2026-12-05"⟩ (by decide) (by decide)

/-- Lexicographic date-then-time order used by the suggestion sort, matching
the localeCompare comparator of the source. -/
def lexLe (a b : String × String) : Prop :=
  a.1 < b.1 ∨ (a.1 = b.1 ∧ a.2 ≤ b.2)

instance : DecidableRel lexLe :=
  fun a b => inferInstanceAs (Decidable (a.1 < b.1 ∨ (a.1 = b.1 ∧ a.2 ≤ b.2)))

instance : IsTotal (String × String) lexLe where
  total a b := by
    rcases lt_trichotomy a.1 b.1 with h | h | h
    · exact Or.inl (Or.inl h)
    · rcases le_total a.2 b.2 with h2 | h2
      · exact Or.inl (Or.inr ⟨h, h2⟩)
      · exact Or.inr (Or.inr ⟨h.symm, h2⟩)
    · exact Or.inr (Or.inl h)

instance : IsTrans (String × String) lexLe where
  trans a b c hab hbc := by
    rcases hab with h1 | ⟨h1, h2⟩
    · rcases hbc with h3 | ⟨h3, h4⟩
      · exact Or.inl (lt_trans h1 h3)
      · exact Or.inl (h3 ▸ h1)
    · rcases hbc with h3 | ⟨h3, h4⟩
      · exact Or.inl (h1 ▸ h3)
      · exact Or.inr ⟨h1.trans h3, h2.trans h4⟩

/-- lexLe is reflexive. -/
theorem lexLe_refl (a : String × String) : lexLe a a :=
  Or.inr ⟨rfl, le_refl _⟩

/-- The suggestion query of generateServiceSuggestion: available rows of the
service inner-joined to available_dates with date at or after today, as
date-and-time pairs. -/
def suggestRowsQuery (st : Store) (serviceId today : String) :
    List (String × String) :=
  st.service_availability.filterMap (fun r =>
    if r.service_id == serviceId && r.is_available then
      match st.available_dates.find? (fun d => d.id == r.date_id) with
      | some d => if today ≤ d.date then some (d.date, r.time) else none
      | none => none
    else none)

/-- The suggestion query result with its fixed 100-row scan cap, or none on a
storage error. -/
def suggestCandidates (qf : QueryFail) (st : Store)
    (serviceId today : String) : Option (List (String × String)) :=
  if qf.qSuggestRows then none
  else some ((suggestRowsQuery st serviceId today).take 100)

/-- The observable effect of generateServiceSuggestion on the suggestion
state: a concrete earliest slot, the pick-a-date hint, or the early return
that leaves the state unchanged. -/
inductive Suggestion where
  | slotHint (date time : String)
  | pickDateHint
  | unchanged
  deriving DecidableEq

/-- generateServiceSuggestion of AppointmentForm: nothing without the
configuration flag; otherwise sort the capped candidate rows by date then time
and return the first, or the pick-a-date hint when no row qualifies or the
query errors. -/
def generateServiceSuggestion (qf : QueryFail) (hasServiceConfiguration : Bool)
    (st : Store) (serviceId today : String) : Suggestion :=
  if !hasServiceConfiguration then Suggestion.unchanged
  else
    match suggestCandidates qf st serviceId today with
    | some data =>
      if data.length > 0 then
        match List.insertionSort lexLe data with
        | [] => Suggestion.pickDateHint
        | p :: _ => Suggestion.slotHint p.1 p.2
      else Suggestion.pickDateHint
    | none => Suggestion.pickDateHint

/-- Claim C7: for a configured service the suggestion scans at most 100
qualifying rows, and returns the lexicographically earliest date-and-time pair
among them as the suggested slot, or the pick-a-date hint when no row
qualifies. -/
theorem suggest_earliest_capped (st : Store) (serviceId today : String) :
    ((suggestCandidates noQF st serviceId today).getD []).length ≤ 100 ∧
    ((suggestCandidates noQF st serviceId today).getD [] = [] →
      generateServiceSuggestion noQF true st serviceId today =
        Suggestion.pickDateHint) ∧
    (∀ p ∈ (suggestCandidates noQF st serviceId today).getD [],
      ∃ d t, generateServiceSuggestion noQF true st serviceId today =
          Suggestion.slotHint d t ∧
        (d, t) ∈ (suggestCandidates noQF st serviceId today).getD [] ∧
        ∀ q ∈ (suggestCandidates noQF st serviceId today).getD [],
          lexLe (d, t) q) := by
  have hcand : suggestCandidates noQF st serviceId today =
      some ((suggestRowsQuery st serviceId today).take 100) := rfl
  refine ⟨?_, ?_, ?_⟩
  · rw [hcand]
    simp [List.length_take]
  · intro hnil
    rw [hcand] at hnil
    simp only [Option.getD_some] at hnil
    unfold generateServiceSuggestion
    rw [hcand]
    simp [hnil]
  · intro p hp
    rw [hcand] at hp
    simp only [Option.getD_some] at hp
    have hne : (suggestRowsQuery st serviceId today).take 100 ≠ [] :=
      List.ne_nil_of_mem hp
    have hlen : ((suggestRowsQuery st serviceId today).take 100).length > 0 :=
      List.length_pos.mpr hne
    have hslen : (List.insertionSort lexLe
        ((suggestRowsQuery st serviceId today).take 100)).length > 0 := by
      rw [List.length_insertionSort]
      exact hlen
    rcases hsort : List.insertionSort lexLe
        ((suggestRowsQuery st serviceId today).take 100) with _ | ⟨hd, tl⟩
    · rw [hsort] at hslen
      exact absurd hslen (by simp)
    · have hres : generateServiceSuggestion noQF true st serviceId today =
          Suggestion.slotHint hd.1 hd.2 := by
        unfold generateServiceSuggestion
        rw [hcand]
        simp only [Bool.not_true, Bool.false_eq_true, if_false, Option.getD_some]
        rw [if_pos hlen, hsort]
      refine ⟨hd.1, hd.2, hres, ?_, ?_⟩
      · have : hd ∈ List.insertionSort lexLe
            ((suggestRowsQuery st serviceId today).take 100) := by
          rw [hsort]
          exact List.mem_cons_self _ _
        rw [hcand]
        simpa using (List.mem_insertionSort lexLe).mp this
      · intro q hq
        rw [hcand] at hq
        simp only [Option.getD_some] at hq
        have hqs : q ∈ List.insertionSort lexLe
            ((suggestRowsQuery st serviceId today).take 100) :=
          (List.mem_insertionSort lexLe).mpr hq
        rw [hsort] at hqs
        rcases List.mem_cons.mp hqs with h | h
        · rw [h]
          exact lexLe_refl hd
        · have hsorted := List.sorted_insertionSort lexLe
            ((suggestRowsQuery st serviceId today).take 100)
          rw [hsort] at hsorted
          exact (List.sorted_cons.mp hsorted).1 q h

/-- Witness for claim C7: on the scenario store the earliest configured slot
of s1 is suggested. -/
theorem suggest_earliest_capped_witness :
    ∃ d t, generateServiceSuggestion noQF true stScenario "s1" "2026-01-01" =
        Suggestion.slotHint d t ∧
      (d, t) ∈ (suggestCandidates noQF stScenario "s1" "2026-01-01").getD [] ∧
      ∀ q ∈ (suggestCandidates noQF stScenario "s1" "2026-01-01").getD [],
        lexLe (d, t) q :=
  (suggest_earliest_capped stScenario "s1" "2026-01-01").2.2
    ("2026-12-01", "09:00") (by
      have hle : (['2', '0', '2', '6', '-', '0', '1', '-', '0', '1'] :
          List Char) ≤ ("2026-12-01" : String).data := by
        decide
      simp [suggestCandidates, suggestRowsQuery, stScenario, noQF, hle])

/-- Only the service-dates join query errors. -/
def qfServiceDates : QueryFail :=
  ⟨false, false, false, false, false, true, false, false⟩

/-- Only the general-dates query errors. -/
def qfGeneralDates : QueryFail :=
  ⟨false, false, false, false, false, false, true, false⟩

/-- Only the DateRecord lookup errors. -/
def qfDateLookup : QueryFail :=
  ⟨true, false, false, false, false, false, false, false⟩

/-- Only the service-times query errors. -/
def qfServiceTimes : QueryFail :=
  ⟨false, false, true, false, false, false, false, false⟩

/-- Only the general-times query errors. -/
def qfGeneralTimes : QueryFail :=
  ⟨false, false, false, true, false, false, false, false⟩

/-- Only the exclusion-set query of the general branch errors. -/
def qfAllServiceTimes : QueryFail :=
  ⟨false, false, false, false, true, false, false, false⟩

/-- Only the suggestion rows query errors. -/
def qfSuggestRows : QueryFail :=
  ⟨false, false, false, false, false, false, false, true⟩

/-- A store where the only available general time of the date is also claimed
by a ServiceSlot of s1. -/
def stC8 : Store :=
  ⟨[⟨1, "2026-12-01"⟩], [⟨10, 1, "09:00", true⟩], [⟨20, "s1", 1, "09:00", true⟩], []⟩

/-- Counterexample to claim C8 as stated: when the exclusion-set query of the
resolver errors, the operation does not return an empty sequence: it returns
the general rows with no exclusion applied, even listing a time claimed by a
ServiceSlot. -/
theorem resolution_error_not_empty_cex :
    fetchServiceSpecificTimes qfAllServiceTimes stC8 "2026-12-01" "s2" =
      [⟨"09:00", true⟩] ∧
    fetchServiceSpecificTimes noQF stC8 "2026-12-01" "s2" = [] := by
  decide

/-- Claim C8 (amended): a storage error in the rows query of either datesFor
branch yields the empty sequence; a storage error in the DateRecord lookup or
in the times query of the governing tier makes slotsFor yield the empty
sequence; a storage error in the suggestion rows query yields the pick-a-date
hint rather than a concrete slot; only an error in the secondary
configuration-check or exclusion-set queries of slotsFor degrades differently,
falling back to unexcluded general rows. -/
theorem resolution_errors_degrade (st : Store) (serviceId date today : String) :
    fetchAvailableDatesForService qfServiceDates st serviceId today = [] ∧
    fetchGeneralAvailableDates qfGeneralDates st today = [] ∧
    fetchServiceSpecificTimes qfDateLookup st date serviceId = [] ∧
    (st.service_availability.filter (fun r => r.service_id == serviceId) ≠ [] →
      fetchServiceSpecificTimes qfServiceTimes st date serviceId = []) ∧
    (st.service_availability.filter (fun r => r.service_id == serviceId) = [] →
      fetchServiceSpecificTimes qfGeneralTimes st date serviceId = []) ∧
    generateServiceSuggestion qfSuggestRows true st serviceId today =
      Suggestion.pickDateHint := by
  refine ⟨rfl, rfl, rfl, ?_, ?_, rfl⟩
  · intro hne
    unfold fetchServiceSpecificTimes
    simp only [qfServiceTimes, Bool.false_eq_true, if_false, if_true]
    rcases hfd : findDateRecord st date with _ | dd
    · rfl
    · have hlen : ((st.service_availability.filter
          (fun r => r.service_id == serviceId)).take 1).length > 0 := by
        rcases hf : st.service_availability.filter
            (fun r => r.service_id == serviceId) with _ | ⟨a, t⟩
        · exact absurd hf hne
        · rw [hf]
          simp
      simp only [hfd, Option.getD_some]
      rw [if_pos hlen]
  · intro hnil
    unfold fetchServiceSpecificTimes
    simp only [qfGeneralTimes, Bool.false_eq_true, if_false, if_true]
    rcases hfd : findDateRecord st date with _ | dd
    · rfl
    · simp [hnil]

/-- Witness for the amended claim C8: on the concrete store, a failing
service-times query empties the configured branch and a failing general-times
query empties the unconfigured branch. -/
theorem resolution_errors_degrade_witness :
    fetchServiceSpecificTimes qfServiceTimes stC8 "2026-12-01" "s1" = [] ∧
    fetchServiceSpecificTimes qfGeneralTimes stC8 "2026-12-01" "s2" = [] :=
  ⟨(resolution_errors_degrade stC8 "s1" "2026-12-01" "2026-01-01").2.2.2.1
      (by decide),
   (resolution_errors_degrade stC8 "s2" "2026-12-01" "2026-01-01").2.2.2.2.1
      (by decide)⟩
